import Mathlib

/-!
Verification of `RGB-model/R-code-github/extract_rgb_features.py`.

The script walks a directory tree, decodes each image file with a recognized
extension, computes per-channel mean pixel values, extracts a concentration
label from the filename with a regular expression, and writes the accumulated
records to a CSV file.

Shallow embedding notes:
* A file's bytes are abstracted to `FileContent`: either the decoder
  (`cv2.imread`) succeeds and yields a pixel grid, or it fails (`undecodable`).
  Pixels are stored in the file's own RGB order; `imread` models the fact that
  OpenCV returns them in BGR order.
* Pixel intensities are naturals, channel means are exact rationals `ℚ`
  (the float computation `np.mean` is modelled by exact arithmetic).
* `re.search(pattern, name)` for a pattern with one capture group is modelled
  by a function `String → Except String (Option String)`: `.ok (some g)` means
  a match whose first capture group matched `g`, `.ok none` means no match,
  and `.error e` means the call raised (e.g. an invalid pattern).  The default
  pattern `([A-Z])_` is implemented concretely as `defaultSearch`.
* Raised exceptions become `Except` errors; the `try/except` block in the
  per-file loop becomes the `Except` match in `processFile`.
* Console diagnostics for failed files are modelled as `(image_path, message)`
  pairs; writing the CSV versus printing the empty-result message is modelled
  by `CsvOutcome`.
-/

/-- Decidable equality for `Except`, needed to evaluate run results on
concrete inputs. -/
instance exceptDecEq {ε α : Type} [DecidableEq ε] [DecidableEq α] :
    DecidableEq (Except ε α) := fun x y =>
  match x, y with
  | .error a, .error b =>
    if h : a = b then .isTrue (by rw [h])
    else .isFalse (by intro hc; cases hc; exact h rfl)
  | .error _, .ok _ => .isFalse (by intro hc; cases hc)
  | .ok _, .error _ => .isFalse (by intro hc; cases hc)
  | .ok a, .ok b =>
    if h : a = b then .isTrue (by rw [h])
    else .isFalse (by intro hc; cases hc; exact h rfl)

/-- Result of attempting to decode one file: a pixel grid in the image's own
(red, green, blue) component order, or a decode failure (`cv2.imread`
returning `None`). -/
inductive FileContent where
  | image (pixels : List (Nat × Nat × Nat)) : FileContent
  | undecodable : FileContent
deriving DecidableEq, Repr

/-- Python `str.lower()`, restricted to the ASCII case folding that matters
for file extensions. -/
def strLower (s : String) : String := String.mk (s.data.map Char.toLower)

/-- Helper for `pySuffix`: the segment of the name from its LAST dot onward
(dot included), or `none` when the name has no dot. -/
def pySuffixAux : List Char → Option (List Char)
  | [] => none
  | c :: rest =>
    match pySuffixAux rest with
    | some s => some s
    | none => if c == '.' then some (c :: rest) else none

/-- Python `pathlib.Path(name).suffix`: the part of the name from the last
dot onward, except that a dot in first or last position yields the empty
suffix (`0 < i < len(name) - 1` in the CPython source). -/
def pySuffix (name : String) : String :=
  match pySuffixAux name.data with
  | none => ""
  | some s =>
    if s.length == name.data.length || s.length == 1 then "" else String.mk s

/-- The recognized image extensions, from `image_extensions` in the script. -/
def image_extensions : List String := [".jpg", ".jpeg", ".png", ".bmp"]

/-- The script's extension filter: `Path(filename).suffix.lower() in
image_extensions`. -/
def hasImageExt (filename : String) : Bool :=
  image_extensions.contains (strLower (pySuffix filename))

/-- Arithmetic mean of a list of pixel intensities, as an exact rational
(models `np.mean` on a channel). -/
def listMean (l : List Nat) : ℚ := (l.sum : ℚ) / (l.length : ℚ)

/-- Model of `cv2.imread`: `none` when the file cannot be decoded; otherwise
the pixel grid in OpenCV's native BGR channel order (the stored RGB
components reversed). -/
def imread : FileContent → Option (List (Nat × Nat × Nat))
  | .image pixels => some (pixels.map (fun p => (p.2.2, p.2.1, p.1)))
  | .undecodable => none

/-- The error message raised when `cv2.imread` returns `None`:
`f"无法读取图像: {image_path}"`. -/
def decodeErrorMsg (image_path : String) : String := "无法读取图像: " ++ image_path

/-- `extract_rgb_features(image_path)`: read the image, split it into its
blue, green and red channels (OpenCV stores BGR), and return the three
channel means in (blue, green, red) order.  A decode failure raises
`ValueError`, modelled as `.error`. -/
def extract_rgb_features (image_path : String) (content : FileContent) :
    Except String (ℚ × ℚ × ℚ) :=
  match imread content with
  | none => .error (decodeErrorMsg image_path)
  | some image =>
    let blue_channel := image.map (fun p => p.1)
    let green_channel := image.map (fun p => p.2.1)
    let red_channel := image.map (fun p => p.2.2)
    .ok (listMean blue_channel, listMean green_channel, listMean red_channel)

/-- True exactly for the characters matched by the regex class `[A-Z]`. -/
def isUpperAZ (c : Char) : Bool := decide ('A' ≤ c) && decide (c ≤ 'Z')

/-- Leftmost match of the default pattern `([A-Z])_` in a character list:
the first uppercase letter immediately followed by an underscore. -/
def searchUpperUnderscore : List Char → Option Char
  | c :: d :: rest =>
    if isUpperAZ c && d == '_' then some c else searchUpperUnderscore (d :: rest)
  | _ => none

/-- `re.search` with the default pattern `([A-Z])_`, returning the text of
the first capture group of the leftmost match. -/
def defaultSearch (s : String) : Option String :=
  (searchUpperUnderscore s.data).map (fun c => String.mk [c])

/-- Lift a total search function (a pattern for which `re.search` cannot
raise) into the fallible interface. -/
def liftSearch (search : String → Option String) :
    String → Except String (Option String) :=
  fun s => Except.ok (search s)

/-- The semantics of `re.search(r'([A-Z])_', ·)` followed by `.group(1)`. -/
def defaultSearchE : String → Except String (Option String) :=
  liftSearch defaultSearch

/-- `get_concentration_label(file_name, pattern)`: run the search; on a match
return the first capture group, otherwise return `None`.  `searchE` is the
semantics of `re.search(pattern, ·)` plus `.group(1)`; an exception it raises
propagates. -/
def get_concentration_label (searchE : String → Except String (Option String))
    (file_name : String) : Except String (Option String) :=
  match searchE file_name with
  | .error e => .error e
  | .ok m =>
    match m with
    | some g => .ok (some g)
    | none => .ok none

/-- One row of the output table (one dict appended to `data`). -/
structure ImageRecord where
  filename : String
  folder : String
  blue : ℚ
  green : ℚ
  red : ℚ
  concentration_label : Option String
deriving DecidableEq, Repr

/-- A directory tree on disk: the files directly in the directory (name and
decodable content) and the named subdirectories. -/
inductive DirTree where
  | node (files : List (String × FileContent)) (subdirs : List (String × DirTree)) : DirTree

mutual
/-- Model of `os.walk`: yields `(dirpath, filenames)` for the directory
itself and then, top-down, for every subdirectory.  Directory paths are kept
as component lists relative to the traversal root. -/
def walk (path : List String) : DirTree → List (List String × List (String × FileContent))
  | .node files subdirs => (path, files) :: walkSubdirs path subdirs

/-- Walk each named subdirectory in order, extending the relative path. -/
def walkSubdirs (path : List String) :
    List (String × DirTree) → List (List String × List (String × FileContent))
  | [] => []
  | (name, sub) :: rest => walk (path ++ [name]) sub ++ walkSubdirs path rest
end

/-- All `(relative dirpath, filename, content)` triples encountered by the
walk, in traversal order. -/
def allFiles (t : DirTree) : List (List String × String × FileContent) :=
  (walk [] t).flatMap (fun e => e.2.map (fun f => (e.1, f.1, f.2)))

/-- `os.path.join` of the root directory with path components, using the
POSIX separator. -/
def joinPath (root : String) (comps : List String) : String :=
  String.intercalate "/" (root :: comps)

/-- `os.path.relpath(dirpath, root_directory)` rendered as a string: `"."`
for the root itself, otherwise the components joined by the separator. -/
def renderRel (comps : List String) : String :=
  if comps.isEmpty then "." else String.intercalate "/" comps

/-- The body of the per-file loop in `process_images_in_directory`: `none`
when the extension filter rejects the file (the file is never opened);
otherwise the outcome of the `try` block — either a completed record, or the
caught exception as a `(image_path, message)` diagnostic. -/
def processFile (searchE : String → Except String (Option String))
    (root_directory : String) (relDir : List String) (filename : String)
    (content : FileContent) : Option (Except (String × String) ImageRecord) :=
  if image_extensions.contains (strLower (pySuffix filename)) then
    let image_path := joinPath root_directory (relDir ++ [filename])
    some (match extract_rgb_features image_path content with
      | .error e => .error (image_path, e)
      | .ok (blue_mean, green_mean, red_mean) =>
        match get_concentration_label searchE filename with
        | .error e => .error (image_path, e)
        | .ok concentration_label =>
          .ok { filename := filename
                folder := renderRel relDir
                blue := blue_mean
                green := green_mean
                red := red_mean
                concentration_label := concentration_label })
  else
    none

/-- Fold the per-file loop over a flat file list: the accumulated `data`
records and the diagnostics printed for files whose processing raised. -/
def processFiles (searchE : String → Except String (Option String))
    (root_directory : String) (files : List (List String × String × FileContent)) :
    List ImageRecord × List (String × String) :=
  let outs := files.filterMap (fun f => processFile searchE root_directory f.1 f.2.1 f.2.2)
  (outs.filterMap Except.toOption,
   outs.filterMap (fun o => match o with | .error d => some d | .ok _ => none))

/-- What happens after traversal: either the CSV file at `output_csv` is
written with the given rows, or no file is created and the script prints
that no processable image files were found. -/
inductive CsvOutcome where
  | written (output_csv : String) (rows : List ImageRecord) : CsvOutcome
  | noProcessableFiles : CsvOutcome
deriving DecidableEq, Repr

/-- The observable result of one run: the accumulated records, the per-file
error diagnostics `(image_path, message)`, and the final CSV outcome. -/
structure RunResult where
  records : List ImageRecord
  diagnostics : List (String × String)
  outcome : CsvOutcome
deriving DecidableEq, Repr

/-- `process_images_in_directory(root_directory, output_csv, pattern)`:
walk the tree, run the per-file loop on every file, then write the CSV when
at least one record was produced and otherwise report that no processable
files were found. -/
def process_images_in_directory (searchE : String → Except String (Option String))
    (root_directory output_csv : String) (tree : DirTree) : RunResult :=
  let pr := processFiles searchE root_directory (allFiles tree)
  { records := pr.1
    diagnostics := pr.2
    outcome :=
      if pr.1.isEmpty then CsvOutcome.noProcessableFiles
      else CsvOutcome.written output_csv pr.1 }

/-- Whether the decoder succeeds on this content. -/
def decodes : FileContent → Bool
  | .image _ => true
  | .undecodable => false

/-- A file that will yield a row: recognized extension and decodable. -/
def isProcessable (f : List String × String × FileContent) : Bool :=
  hasImageExt f.2.1 && decodes f.2.2

/-- The number of files in the tree with a recognized extension and decodable
content (the `N` of the row-count property). -/
def countProcessable (t : DirTree) : Nat := (allFiles t).countP isProcessable

/-! ### Helper lemmas -/

/-- The mean of a constant channel is that constant. -/
theorem listMean_replicate (n x : Nat) (hn : 0 < n) :
    listMean (List.replicate n x) = (x : ℚ) := by
  have hne : ((n : ℚ)) ≠ 0 := by exact_mod_cast hn.ne.symm
  simp [listMean, List.sum_const_nat]
  rw [mul_comm, mul_div_assoc, div_self hne, mul_one]

/-- The rendered relative path of the root itself is the dot. -/
theorem renderRel_nil : renderRel [] = "." := rfl

/-- Rendering a nonempty relative path joins the components. -/
theorem renderRel_of_ne_nil (comps : List String) (h : comps ≠ []) :
    renderRel comps = String.intercalate "/" comps := by
  cases comps with
  | nil => exact absurd rfl h
  | cons c cs => rfl

/-- A file rejected by the extension filter is not opened at all. -/
theorem processFile_of_not_ext (searchE : String → Except String (Option String))
    (root_directory : String) (relDir : List String) (filename : String)
    (content : FileContent) (h : hasImageExt filename = false) :
    processFile searchE root_directory relDir filename content = none := by
  unfold processFile
  rw [show image_extensions.contains (strLower (pySuffix filename)) = false from h]
  rfl

/-- Successful per-file processing of a decodable image when the search does
not raise: one completed record. -/
theorem processFile_image_ok (searchE : String → Except String (Option String))
    (root_directory : String) (relDir : List String) (filename : String)
    (px : List (Nat × Nat × Nat)) (lbl : Option String)
    (hext : hasImageExt filename = true) (hs : searchE filename = Except.ok lbl) :
    processFile searchE root_directory relDir filename (FileContent.image px)
      = some (Except.ok
          { filename := filename
            folder := renderRel relDir
            blue := listMean (px.map (fun p => p.2.2))
            green := listMean (px.map (fun p => p.2.1))
            red := listMean (px.map (fun p => p.1))
            concentration_label := lbl }) := by
  unfold processFile
  rw [show image_extensions.contains (strLower (pySuffix filename)) = true from hext]
  simp only [extract_rgb_features, imread, List.map_map, Function.comp,
    get_concentration_label, hs]
  cases lbl <;> rfl

/-- When the search raises, the per-file loop catches the exception as a
diagnostic for that file. -/
theorem processFile_image_raise (searchE : String → Except String (Option String))
    (root_directory : String) (relDir : List String) (filename : String)
    (px : List (Nat × Nat × Nat)) (msg : String)
    (hext : hasImageExt filename = true) (hs : searchE filename = Except.error msg) :
    processFile searchE root_directory relDir filename (FileContent.image px)
      = some (Except.error (joinPath root_directory (relDir ++ [filename]), msg)) := by
  unfold processFile
  rw [show image_extensions.contains (strLower (pySuffix filename)) = true from hext]
  simp [extract_rgb_features, imread, get_concentration_label, hs]

/-- An undecodable file with a recognized extension yields the caught decode
error as a diagnostic. -/
theorem processFile_undecodable (searchE : String → Except String (Option String))
    (root_directory : String) (relDir : List String) (filename : String)
    (hext : hasImageExt filename = true) :
    processFile searchE root_directory relDir filename FileContent.undecodable
      = some (Except.error (joinPath root_directory (relDir ++ [filename]),
          decodeErrorMsg (joinPath root_directory (relDir ++ [filename])))) := by
  unfold processFile
  rw [show image_extensions.contains (strLower (pySuffix filename)) = true from hext]
  rfl

/-- The fold over an empty file list produces nothing. -/
theorem processFiles_nil (searchE : String → Except String (Option String))
    (root_directory : String) :
    processFiles searchE root_directory [] = ([], []) := rfl

/-- A skipped head file leaves the fold unchanged. -/
theorem processFiles_cons_none (searchE : String → Except String (Option String))
    (root_directory : String) (f : List String × String × FileContent)
    (fs : List (List String × String × FileContent))
    (h : processFile searchE root_directory f.1 f.2.1 f.2.2 = none) :
    processFiles searchE root_directory (f :: fs) = processFiles searchE root_directory fs := by
  simp [processFiles, List.filterMap_cons, h]

/-- A successful head file contributes its record and no diagnostic. -/
theorem processFiles_cons_ok (searchE : String → Except String (Option String))
    (root_directory : String) (f : List String × String × FileContent)
    (fs : List (List String × String × FileContent)) (rec : ImageRecord)
    (h : processFile searchE root_directory f.1 f.2.1 f.2.2 = some (Except.ok rec)) :
    (processFiles searchE root_directory (f :: fs)).1
        = rec :: (processFiles searchE root_directory fs).1 ∧
    (processFiles searchE root_directory (f :: fs)).2
        = (processFiles searchE root_directory fs).2 := by
  constructor <;> simp [processFiles, List.filterMap_cons, h, Except.toOption]

/-- A failing head file contributes its diagnostic and no record. -/
theorem processFiles_cons_error (searchE : String → Except String (Option String))
    (root_directory : String) (f : List String × String × FileContent)
    (fs : List (List String × String × FileContent)) (d : String × String)
    (h : processFile searchE root_directory f.1 f.2.1 f.2.2 = some (Except.error d)) :
    (processFiles searchE root_directory (f :: fs)).1
        = (processFiles searchE root_directory fs).1 ∧
    (processFiles searchE root_directory (f :: fs)).2
        = d :: (processFiles searchE root_directory fs).2 := by
  constructor <;> simp [processFiles, List.filterMap_cons, h, Except.toOption]

/-- The fold distributes over list concatenation: processing is per-file and
order-preserving. -/
theorem processFiles_append (searchE : String → Except String (Option String))
    (root_directory : String) (l1 l2 : List (List String × String × FileContent)) :
    processFiles searchE root_directory (l1 ++ l2)
      = ((processFiles searchE root_directory l1).1 ++ (processFiles searchE root_directory l2).1,
         (processFiles searchE root_directory l1).2 ++ (processFiles searchE root_directory l2).2) := by
  simp [processFiles, List.filterMap_append]

/-- Record count of the fold: one record per file with a recognized extension
and decodable content, provided the search never raises. -/
theorem processFiles_records_length (searchE : String → Except String (Option String))
    (root_directory : String) (files : List (List String × String × FileContent))
    (hok : ∀ s, ∃ v, searchE s = Except.ok v) :
    (processFiles searchE root_directory files).1.length = files.countP isProcessable := by
  induction files with
  | nil => rfl
  | cons f fs ih =>
    obtain ⟨rel, name, content⟩ := f
    by_cases hext : hasImageExt name = true
    · cases content with
      | image px =>
        obtain ⟨lbl, hlbl⟩ := hok name
        have h := processFile_image_ok searchE root_directory rel name px lbl hext hlbl
        have hc := processFiles_cons_ok searchE root_directory (rel, name, .image px) fs _ h
        rw [hc.1]
        simp [List.countP_cons, isProcessable, decodes, hext, ih]
      | undecodable =>
        have h := processFile_undecodable searchE root_directory rel name hext
        have hc := processFiles_cons_error searchE root_directory (rel, name, .undecodable) fs _ h
        rw [hc.1]
        simp [List.countP_cons, isProcessable, decodes, ih]
    · have hextf : hasImageExt name = false := by simpa using hext
      rw [processFiles_cons_none searchE root_directory (rel, name, content) fs
        (processFile_of_not_ext searchE root_directory rel name content hextf)]
      simp [List.countP_cons, isProcessable, hextf, ih]

/-- Bridge between the boolean extension filter and list membership. -/
theorem hasImageExt_iff (filename : String) :
    hasImageExt filename = true ↔ strLower (pySuffix filename) ∈ image_extensions := by
  simp [hasImageExt, List.contains]

/-- A file passing the extension filter is opened: the per-file loop enters
the `try` block and yields some outcome. -/
theorem processFile_of_ext_ne_none (searchE : String → Except String (Option String))
    (root_directory : String) (relDir : List String) (filename : String)
    (content : FileContent) (hext : hasImageExt filename = true) :
    processFile searchE root_directory relDir filename content ≠ none := by
  unfold processFile
  rw [show image_extensions.contains (strLower (pySuffix filename)) = true from hext]
  simp

/-- Inversion: any completed record carries the file's base name and the
rendered relative directory. -/
theorem processFile_ok_inv (searchE : String → Except String (Option String))
    (root_directory : String) (relDir : List String) (filename : String)
    (content : FileContent) (rec : ImageRecord)
    (h : processFile searchE root_directory relDir filename content = some (Except.ok rec)) :
    rec.filename = filename ∧ rec.folder = renderRel relDir := by
  unfold processFile at h
  split at h
  · rw [Option.some_inj] at h
    split at h
    · simp at h
    · split at h
      · simp at h
      · injection h with h
        rw [← h]
        exact ⟨rfl, rfl⟩
  · simp at h

/-! ### Claims -/

/-- C2: for every filename and every pattern with one capture group (modelled
by a total search function), `get_concentration_label` returns the text of
the first capture group when the pattern matches anywhere in the filename and
`None` when it does not, never raising on a non-match; with the default
pattern `([A-Z])_` it yields `B` for `B_002.jpg` and no label for
`sample.png`. -/
theorem label_is_first_capture_group_or_none (search : String → Option String)
    (file_name : String) :
    get_concentration_label (liftSearch search) file_name = Except.ok (search file_name) ∧
    get_concentration_label defaultSearchE "B_002.jpg" = Except.ok (some "B") ∧
    get_concentration_label defaultSearchE "sample.png" = Except.ok none := by
  refine ⟨?_, rfl, rfl⟩
  cases h : search file_name <;> simp [get_concentration_label, liftSearch, h]

/-- C4: a run that produces zero records does not write the output file and
reports that no processable files were found. -/
theorem empty_result_skips_csv (searchE : String → Except String (Option String))
    (root_directory output_csv : String) (tree : DirTree)
    (h : (process_images_in_directory searchE root_directory output_csv tree).records = []) :
    (process_images_in_directory searchE root_directory output_csv tree).outcome
      = CsvOutcome.noProcessableFiles := by
  simp only [process_images_in_directory] at h ⊢
  rw [h]
  rfl

/-- Witness for C4: the empty directory tree produces no records, writes no
file, and reports no processable files. -/
theorem empty_result_skips_csv_witness :
    (process_images_in_directory defaultSearchE "root" "rgb_features.csv"
        (DirTree.node [] [])).outcome = CsvOutcome.noProcessableFiles :=
  empty_result_skips_csv defaultSearchE "root" "rgb_features.csv" (DirTree.node [] []) rfl

/-- C5: a file is processed (its per-file outcome exists) exactly when its
extension, lowercased, is one of `.jpg`, `.jpeg`, `.png`, `.bmp`; every other
file is ignored without being opened. -/
theorem processed_iff_recognized_extension (searchE : String → Except String (Option String))
    (root_directory : String) (relDir : List String) (filename : String)
    (content : FileContent) :
    processFile searchE root_directory relDir filename content ≠ none ↔
      strLower (pySuffix filename) ∈ image_extensions := by
  constructor
  · intro hne
    by_contra hmem
    have hext : hasImageExt filename = false := by
      rw [← Bool.not_eq_true]
      intro hb
      exact hmem ((hasImageExt_iff filename).mp hb)
    exact hne (processFile_of_not_ext searchE root_directory relDir filename content hext)
  · intro hmem
    exact processFile_of_ext_ne_none searchE root_directory relDir filename content
      ((hasImageExt_iff filename).mpr hmem)

/-- C6: for a decodable image, `extract_rgb_features` returns the arithmetic
mean of each of the three channels over all pixels, in the decoder's native
(blue, green, red) order; a solid-color image of RGB value `(r, g, b)` yields
`(b, g, r)`. -/
theorem channel_means_in_bgr_order (image_path : String) (px : List (Nat × Nat × Nat))
    (r g b n : Nat) (hn : 0 < n) :
    extract_rgb_features image_path (FileContent.image px)
      = Except.ok (listMean (px.map (fun p => p.2.2)), listMean (px.map (fun p => p.2.1)),
          listMean (px.map (fun p => p.1))) ∧
    extract_rgb_features image_path (FileContent.image (List.replicate n (r, g, b)))
      = Except.ok ((b : ℚ), (g : ℚ), (r : ℚ)) := by
  have hb := listMean_replicate n b hn
  have hg := listMean_replicate n g hn
  have hr := listMean_replicate n r hn
  constructor
  · simp only [extract_rgb_features, imread]
    rw [List.map_map, List.map_map, List.map_map]
    rfl
  · simp [extract_rgb_features, imread, List.map_map, Function.comp, List.map_replicate,
      hb, hg, hr]

/-- Witness for C6: a two-pixel solid image of RGB value (10, 20, 30) yields
channel means (30, 20, 10). -/
theorem channel_means_in_bgr_order_witness :
    extract_rgb_features "img.png" (FileContent.image (List.replicate 2 (10, 20, 30)))
      = Except.ok ((30 : ℚ), (20 : ℚ), (10 : ℚ)) :=
  (channel_means_in_bgr_order "img.png" [(10, 20, 30)] 10 20 30 2 (by decide)).2

/-- C10: a processed file lying directly in the traversal root records the
folder `"."`, not the empty string. -/
theorem root_level_folder_is_dot (searchE : String → Except String (Option String))
    (root_directory filename : String) (content : FileContent) (rec : ImageRecord)
    (h : processFile searchE root_directory [] filename content = some (Except.ok rec)) :
    rec.folder = "." ∧ rec.folder ≠ "" := by
  have hinv := processFile_ok_inv searchE root_directory [] filename content rec h
  refine ⟨hinv.2.trans renderRel_nil, ?_⟩
  rw [hinv.2.trans renderRel_nil]
  decide

/-- The record produced for the file `A_1.png` with pixel `(1, 2, 3)` directly
in the root, used by concrete run evaluations. -/
def rootSampleRecord : ImageRecord :=
  { filename := "A_1.png"
    folder := "."
    blue := 3
    green := 2
    red := 1
    concentration_label := some "A" }

/-- Witness for C10: a decodable image directly in the root produces a record
whose folder is the dot. -/
theorem root_level_folder_is_dot_witness :
    rootSampleRecord.folder = "." ∧ rootSampleRecord.folder ≠ "" := by
  have hpf : processFile defaultSearchE "root" [] "A_1.png" (FileContent.image [(1, 2, 3)])
      = some (Except.ok rootSampleRecord) := by
    simp [processFile, extract_rgb_features, imread, listMean, image_extensions, strLower,
      pySuffix, pySuffixAux, get_concentration_label, defaultSearchE, liftSearch, defaultSearch,
      searchUpperUnderscore, isUpperAZ, joinPath, renderRel, String.intercalate,
      String.intercalate.go, rootSampleRecord]
  exact root_level_folder_is_dot defaultSearchE "root" "A_1.png"
    (FileContent.image [(1, 2, 3)]) rootSampleRecord hpf

/-- C1: for every tree whose N files have recognized extensions and decode
successfully while M other files have other extensions or undecodable
content, the run records exactly N rows and (when N is positive) writes the
output table with exactly those rows, regardless of nesting depth. -/
theorem row_count_equals_processable_files (searchE : String → Except String (Option String))
    (root_directory output_csv : String) (tree : DirTree)
    (hok : ∀ s, ∃ v, searchE s = Except.ok v) :
    (process_images_in_directory searchE root_directory output_csv tree).records.length
      = countProcessable tree ∧
    (countProcessable tree ≠ 0 →
      (process_images_in_directory searchE root_directory output_csv tree).outcome
        = CsvOutcome.written output_csv
            (process_images_in_directory searchE root_directory output_csv tree).records) := by
  have hlen := processFiles_records_length searchE root_directory (allFiles tree) hok
  constructor
  · simpa only [process_images_in_directory, countProcessable] using hlen
  · intro hne
    have hempty : (processFiles searchE root_directory (allFiles tree)).1.isEmpty = false := by
      cases hp : (processFiles searchE root_directory (allFiles tree)).1 with
      | nil =>
        exfalso
        apply hne
        rw [countProcessable, ← hlen, hp]
        rfl
      | cons a l => rfl
    simp [process_images_in_directory, hempty]

/-- A sample tree with three processable files (one of them two levels deep),
one file with an unrecognized extension, and one undecodable image file. -/
def witnessTree : DirTree :=
  DirTree.node
    [("A_1.png", FileContent.image [(1, 2, 3)]),
     ("notes.txt", FileContent.image [(9, 9, 9)]),
     ("bad.jpg", FileContent.undecodable)]
    [("sub", DirTree.node
        [("x.PNG", FileContent.image [(4, 5, 6), (6, 5, 4)])]
        [("deep", DirTree.node [("z.bmp", FileContent.image [(0, 0, 0)])] [])])]

/-- Witness for C1: the sample tree (N = 3, M = 2, nesting depth 2) produces
exactly three rows and writes them. -/
theorem row_count_equals_processable_files_witness :
    (process_images_in_directory defaultSearchE "root" "rgb_features.csv" witnessTree).records.length
      = 3 ∧
    (process_images_in_directory defaultSearchE "root" "rgb_features.csv" witnessTree).outcome
      = CsvOutcome.written "rgb_features.csv"
          (process_images_in_directory defaultSearchE "root" "rgb_features.csv" witnessTree).records := by
  have h := row_count_equals_processable_files defaultSearchE "root" "rgb_features.csv" witnessTree
    (fun s => ⟨defaultSearch s, rfl⟩)
  exact ⟨h.1.trans (by decide), h.2 (by decide)⟩

/-- C3: on an undecodable file with a recognized extension, the channel-mean
extractor fails with an error naming the file; the orchestrator turns that
failure into a diagnostic carrying the file path and message, produces no
record for the file, and keeps processing the files before and after it. -/
theorem decode_failure_logged_skipped_continues (searchE : String → Except String (Option String))
    (root_directory : String) (relDir : List String) (filename : String)
    (before after : List (List String × String × FileContent))
    (hext : hasImageExt filename = true) :
    extract_rgb_features (joinPath root_directory (relDir ++ [filename])) FileContent.undecodable
      = Except.error (decodeErrorMsg (joinPath root_directory (relDir ++ [filename]))) ∧
    (processFiles searchE root_directory
        (before ++ (relDir, filename, FileContent.undecodable) :: after)).1
      = (processFiles searchE root_directory before).1
          ++ (processFiles searchE root_directory after).1 ∧
    (processFiles searchE root_directory
        (before ++ (relDir, filename, FileContent.undecodable) :: after)).2
      = (processFiles searchE root_directory before).2
          ++ (joinPath root_directory (relDir ++ [filename]),
              decodeErrorMsg (joinPath root_directory (relDir ++ [filename])))
             :: (processFiles searchE root_directory after).2 := by
  have hpf := processFile_undecodable searchE root_directory relDir filename hext
  have hcons := processFiles_cons_error searchE root_directory
    (relDir, filename, FileContent.undecodable) after _ hpf
  have happ := processFiles_append searchE root_directory before
    ((relDir, filename, FileContent.undecodable) :: after)
  exact ⟨rfl, by simp [happ, hcons.1], by simp [happ, hcons.2]⟩

/-- Witness for C3: a corrupt `broken.png` between two good files is logged
with its path and skipped while both neighbours are still processed. -/
theorem decode_failure_logged_skipped_continues_witness :
    extract_rgb_features (joinPath "root" (["sub"] ++ ["broken.png"])) FileContent.undecodable
      = Except.error (decodeErrorMsg (joinPath "root" (["sub"] ++ ["broken.png"]))) ∧
    (processFiles defaultSearchE "root"
        ([([], "A_1.png", FileContent.image [(1, 2, 3)])]
          ++ (["sub"], "broken.png", FileContent.undecodable)
             :: [(["sub"], "B_2.jpg", FileContent.image [(4, 5, 6)])])).1
      = (processFiles defaultSearchE "root" [([], "A_1.png", FileContent.image [(1, 2, 3)])]).1
          ++ (processFiles defaultSearchE "root" [(["sub"], "B_2.jpg", FileContent.image [(4, 5, 6)])]).1 ∧
    (processFiles defaultSearchE "root"
        ([([], "A_1.png", FileContent.image [(1, 2, 3)])]
          ++ (["sub"], "broken.png", FileContent.undecodable)
             :: [(["sub"], "B_2.jpg", FileContent.image [(4, 5, 6)])])).2
      = (processFiles defaultSearchE "root" [([], "A_1.png", FileContent.image [(1, 2, 3)])]).2
          ++ (joinPath "root" (["sub"] ++ ["broken.png"]),
              decodeErrorMsg (joinPath "root" (["sub"] ++ ["broken.png"])))
             :: (processFiles defaultSearchE "root" [(["sub"], "B_2.jpg", FileContent.image [(4, 5, 6)])]).2 :=
  decode_failure_logged_skipped_continues defaultSearchE "root" ["sub"] "broken.png"
    [([], "A_1.png", FileContent.image [(1, 2, 3)])]
    [(["sub"], "B_2.jpg", FileContent.image [(4, 5, 6)])] (by decide)

/-- C7: every completed record carries the file's base name as `filename` and
the containing directory's path relative to the traversal root, components
joined by the separator, as `folder`. -/
theorem record_folder_is_relative_path (searchE : String → Except String (Option String))
    (root_directory : String) (relDir : List String) (filename : String)
    (content : FileContent) (rec : ImageRecord) (hrel : relDir ≠ [])
    (h : processFile searchE root_directory relDir filename content = some (Except.ok rec)) :
    rec.filename = filename ∧ rec.folder = String.intercalate "/" relDir := by
  have hinv := processFile_ok_inv searchE root_directory relDir filename content rec h
  exact ⟨hinv.1, hinv.2.trans (renderRel_of_ne_nil relDir hrel)⟩

/-- The record produced for the file `x.png` with pixel `(1, 2, 3)` in the
subdirectory `sub/dir`, used by concrete run evaluations. -/
def subdirSampleRecord : ImageRecord :=
  { filename := "x.png"
    folder := "sub/dir"
    blue := 3
    green := 2
    red := 1
    concentration_label := none }

/-- Witness for C7: a file at `root/sub/dir/x.png` records `folder = sub/dir`
and `filename = x.png`. -/
theorem record_folder_is_relative_path_witness :
    subdirSampleRecord.filename = "x.png" ∧
    subdirSampleRecord.folder = String.intercalate "/" ["sub", "dir"] := by
  have hpf : processFile defaultSearchE "root" ["sub", "dir"] "x.png" (FileContent.image [(1, 2, 3)])
      = some (Except.ok subdirSampleRecord) := by
    simp [processFile, extract_rgb_features, imread, listMean, image_extensions, strLower,
      pySuffix, pySuffixAux, get_concentration_label, defaultSearchE, liftSearch, defaultSearch,
      searchUpperUnderscore, isUpperAZ, joinPath, renderRel, String.intercalate,
      String.intercalate.go, subdirSampleRecord]
  exact record_folder_is_relative_path defaultSearchE "root" ["sub", "dir"] "x.png"
    (FileContent.image [(1, 2, 3)]) subdirSampleRecord (by decide) hpf

/-- C8: a decodable image whose filename has no match for the pattern still
produces a row, and that row's concentration label is absent; label absence
is not a processing failure. -/
theorem unmatched_label_still_yields_row (search : String → Option String)
    (root_directory : String) (relDir : List String) (filename : String)
    (px : List (Nat × Nat × Nat))
    (hext : hasImageExt filename = true) (hnil : search filename = none) :
    processFile (liftSearch search) root_directory relDir filename (FileContent.image px)
      = some (Except.ok
          { filename := filename
            folder := renderRel relDir
            blue := listMean (px.map (fun p => p.2.2))
            green := listMean (px.map (fun p => p.2.1))
            red := listMean (px.map (fun p => p.1))
            concentration_label := none }) := by
  have hs : liftSearch search filename = Except.ok none := by simp [liftSearch, hnil]
  exact processFile_image_ok (liftSearch search) root_directory relDir filename px none hext hs

/-- Witness for C8: `sample.png` has no match for `([A-Z])_` yet yields a row
with an absent label. -/
theorem unmatched_label_still_yields_row_witness :
    processFile (liftSearch defaultSearch) "root" [] "sample.png"
        (FileContent.image ([(7, 8, 9)] : List (Nat × Nat × Nat)))
      = some (Except.ok
          { filename := "sample.png"
            folder := renderRel []
            blue := listMean (([(7, 8, 9)] : List (Nat × Nat × Nat)).map (fun p => p.2.2))
            green := listMean (([(7, 8, 9)] : List (Nat × Nat × Nat)).map (fun p => p.2.1))
            red := listMean (([(7, 8, 9)] : List (Nat × Nat × Nat)).map (fun p => p.1))
            concentration_label := none }) :=
  unmatched_label_still_yields_row defaultSearch "root" [] "sample.png" [(7, 8, 9)]
    (by decide) rfl

/-- C9: the per-file handler catches every exception, not only decode errors:
when the label search itself raises on a decodable image, the file is logged
with its path and the raised message, contributes no record, and the files
before and after it are still processed. -/
theorem try_block_catches_all_exceptions (searchE : String → Except String (Option String))
    (root_directory : String) (relDir : List String) (filename : String)
    (px : List (Nat × Nat × Nat)) (msg : String)
    (before after : List (List String × String × FileContent))
    (hext : hasImageExt filename = true)
    (hraise : searchE filename = Except.error msg) :
    processFile searchE root_directory relDir filename (FileContent.image px)
      = some (Except.error (joinPath root_directory (relDir ++ [filename]), msg)) ∧
    (processFiles searchE root_directory
        (before ++ (relDir, filename, FileContent.image px) :: after)).1
      = (processFiles searchE root_directory before).1
          ++ (processFiles searchE root_directory after).1 ∧
    (processFiles searchE root_directory
        (before ++ (relDir, filename, FileContent.image px) :: after)).2
      = (processFiles searchE root_directory before).2
          ++ (joinPath root_directory (relDir ++ [filename]), msg)
             :: (processFiles searchE root_directory after).2 := by
  have hpf := processFile_image_raise searchE root_directory relDir filename px msg hext hraise
  have hcons := processFiles_cons_error searchE root_directory
    (relDir, filename, FileContent.image px) after _ hpf
  have happ := processFiles_append searchE root_directory before
    ((relDir, filename, FileContent.image px) :: after)
  exact ⟨hpf, by simp [happ, hcons.1], by simp [happ, hcons.2]⟩

/-- The semantics of `re.search` called with an invalid pattern: every call
raises `re.error`. -/
def raisingSearchE : String → Except String (Option String) :=
  fun _ => Except.error "re.error: missing ), unterminated subpattern"

/-- Witness for C9: with a search that raises, a decodable `A_1.png` is
logged and skipped while the following file is still visited. -/
theorem try_block_catches_all_exceptions_witness :
    processFile raisingSearchE "root" [] "A_1.png"
        (FileContent.image ([(1, 2, 3)] : List (Nat × Nat × Nat)))
      = some (Except.error (joinPath "root" ([] ++ ["A_1.png"]),
          "re.error: missing ), unterminated subpattern")) ∧
    (processFiles raisingSearchE "root"
        ([] ++ ([], "A_1.png", FileContent.image [(1, 2, 3)])
             :: [([], "keep.png", FileContent.image [(4, 5, 6)])])).1
      = (processFiles raisingSearchE "root" []).1
          ++ (processFiles raisingSearchE "root" [([], "keep.png", FileContent.image [(4, 5, 6)])]).1 ∧
    (processFiles raisingSearchE "root"
        ([] ++ ([], "A_1.png", FileContent.image [(1, 2, 3)])
             :: [([], "keep.png", FileContent.image [(4, 5, 6)])])).2
      = (processFiles raisingSearchE "root" []).2
          ++ (joinPath "root" ([] ++ ["A_1.png"]),
              "re.error: missing ), unterminated subpattern")
             :: (processFiles raisingSearchE "root" [([], "keep.png", FileContent.image [(4, 5, 6)])]).2 :=
  try_block_catches_all_exceptions raisingSearchE "root" [] "A_1.png" [(1, 2, 3)]
    "re.error: missing ), unterminated subpattern" []
    [([], "keep.png", FileContent.image [(4, 5, 6)])] (by decide) rfl
